import Mathlib

/-!
Verification of the Crazy Pong simulation core.

Shallow embedding of the repository's JavaScript modules:
* `src/modules/utils.js`   — `getFieldOffset`, `hexToRgb`, `rgbToHex`, `transitionColor`
* `src/modules/chaos.js`   — `ChaosController` parameter schedules
* `src/modules/paddle.js`  — `Paddle.updateAI` and the `Game` multiball population logic
* the `Ball` class          — physics, collisions, reset, scoring

JS numbers are modelled as exact rationals (`ℚ`); the one place the code uses
transcendental functions (`Ball.reset`'s angle draw) is modelled over `ℝ`.
Randomness (`Math.random()` draws) is modelled by explicit arguments carrying
a value in `[0, 1)`.
-/

namespace Pong

/-- Canvas dimensions (`canvas.width`, `canvas.height`). -/
structure Canvas where
  width : ℚ
  height : ℚ
deriving DecidableEq

/-- The numeric / boolean game parameters read by the simulation core
(colour parameters are modelled separately, as character lists). -/
structure GameParams where
  ballSpeed : ℚ
  ballSize : ℚ
  paddleSize : ℚ
  paddleWidth : ℚ
  paddleSpeed : ℚ
  ballGravityX : ℚ
  ballGravityY : ℚ
  fieldWidth : ℚ
  fieldHeight : ℚ
  multiball : Bool
  trailEffect : Bool
deriving DecidableEq

/-- Playfield rectangle, as returned by `getFieldOffset`. -/
structure FieldRect where
  x : ℚ
  y : ℚ
  width : ℚ
  height : ℚ
deriving DecidableEq

/-- Source `utils.js` `getFieldOffset(canvas, gameParams)`: field sized by the two
field ratios and centred in the canvas. -/
def getFieldOffset (canvas : Canvas) (gameParams : GameParams) : FieldRect :=
  let fieldWidth := canvas.width * gameParams.fieldWidth
  let fieldHeight := canvas.height * gameParams.fieldHeight
  { x := (canvas.width - fieldWidth) / 2
    y := (canvas.height - fieldHeight) / 2
    width := fieldWidth
    height := fieldHeight }

/-- Ball state (`Ball` class fields used by the simulation core). -/
structure Ball where
  canvas : Canvas
  gameParams : GameParams
  x : ℚ
  y : ℚ
  dx : ℚ
  dy : ℚ
  size : ℚ
  lastScoreTime : ℚ
  shouldRespawn : Bool
  needsRemoval : Bool
  trail : List (ℚ × ℚ × ℚ)
deriving DecidableEq

/-- Paddle state (position/size fields of the `Paddle` class). -/
structure Paddle where
  x : ℚ
  y : ℚ
  width : ℚ
  height : ℚ
  isLeft : Bool
deriving DecidableEq

/-- The velocity produced by a `Ball.reset` call.  The actual draw uses
`Math.cos`/`Math.sin` and is modelled exactly, over `ℝ`, by `resetVel`
below; at the `ℚ` level of the state machine the drawn velocity enters as
an oracle value, which is all the update-level claims depend on. -/
structure ResetDraw where
  dx : ℚ
  dy : ℚ
deriving DecidableEq

/-- Source `Ball.reset` (position part): recentre the ball in the current field and
install the freshly drawn velocity. -/
def Ball.reset (b : Ball) (draw : ResetDraw) : Ball :=
  let field := getFieldOffset b.canvas b.gameParams
  { b with
    x := field.x + field.width / 2
    y := field.y + field.height / 2
    dx := draw.dx
    dy := draw.dy }

/-- Source `Ball.handleWallCollision(field, ballSize)`: clamp the ball inside the
top/bottom boundaries, forcing `dy` to `|dy|` (top) or `-|dy|` (bottom).
Returns the updated ball and whether a collision occurred. -/
def Ball.handleWallCollision (b : Ball) (field : FieldRect) (ballSize : ℚ) :
    Ball × Bool :=
  let res1 : Ball × Bool :=
    if b.y - ballSize < field.y then
      ({ b with y := field.y + ballSize, dy := |b.dy| }, true)
    else (b, false)
  let b1 := res1.1
  if b1.y + ballSize > field.y + field.height then
    ({ b1 with y := field.y + field.height - ballSize, dy := -|b1.dy| }, true)
  else (b1, res1.2)

/-- Source `Ball.handlePaddleCollision(paddle, ballSize)`: AABB overlap test, face
picked by minimum penetration; horizontal faces flip `dx`, reposition flush,
re-derive `dy` from the hit position and clamp `|dx|` to at least 2; vertical
faces flip `dy` and reposition flush; every hit then scales both components
by 1.1.  Returns the updated ball and whether a collision occurred. -/
def Ball.handlePaddleCollision (b : Ball) (paddle : Paddle) (ballSize : ℚ) :
    Ball × Bool :=
  let ballLeft := b.x - ballSize
  let ballRight := b.x + ballSize
  let ballTop := b.y - ballSize
  let ballBottom := b.y + ballSize
  let paddleLeft := paddle.x
  let paddleRight := paddle.x + paddle.width
  let paddleTop := paddle.y
  let paddleBottom := paddle.y + paddle.height
  if ballRight ≥ paddleLeft ∧ ballLeft ≤ paddleRight ∧
      ballBottom ≥ paddleTop ∧ ballTop ≤ paddleBottom then
    let overlapLeft := ballRight - paddleLeft
    let overlapRight := paddleRight - ballLeft
    let overlapTop := ballBottom - paddleTop
    let overlapBottom := paddleBottom - ballTop
    let minOverlap := min (min overlapLeft overlapRight) (min overlapTop overlapBottom)
    let b1 :=
      if minOverlap = overlapLeft ∨ minOverlap = overlapRight then
        let b1 := { b with dx := -b.dx }
        let b1 :=
          if minOverlap = overlapLeft then { b1 with x := paddleLeft - ballSize }
          else { b1 with x := paddleRight + ballSize }
        let hitPosition := (b1.y - paddle.y) / paddle.height
        let b1 := { b1 with dy := (hitPosition - 1/2) * 2 * |b1.dx| }
        if |b1.dx| < 2 then
          { b1 with dx := if b1.dx > 0 then 2 else -2 }
        else b1
      else
        let b1 := { b with dy := -b.dy }
        if minOverlap = overlapTop then { b1 with y := paddleTop - ballSize }
        else { b1 with y := paddleBottom + ballSize }
    ({ b1 with dx := b1.dx * (1 + 1/10), dy := b1.dy * (1 + 1/10) }, true)
  else
    (b, false)

/-- Result of one `Ball.update` tick: the new ball, the shake accumulator,
which paddles were hit, which side boundary the ball exited (left exit means
the right player scores, and vice versa), and whether the 5%-chance multiball
callback fired. -/
structure UpdateResult where
  ball : Ball
  shake : ℚ
  hitLeft : Bool
  hitRight : Bool
  exitLeft : Bool
  exitRight : Bool
  firedMultiball : Bool
deriving DecidableEq

/-- The scoring section at the end of `Ball.update` (both boundary checks,
each with the respawn-or-remove handling).  `drawL`/`drawR` are the random
velocities the two potential `reset` calls would draw.  Returns the ball and
the two exit flags. -/
def Ball.scoreStep (b : Ball) (timestamp : ℚ) (field : FieldRect)
    (ballSize : ℚ) (drawL drawR : ResetDraw) : Ball × Bool × Bool :=
  let res1 :=
    if b.x + ballSize < field.x then
      (if b.shouldRespawn then Ball.reset { b with lastScoreTime := timestamp } drawL
       else { b with needsRemoval := true }, true)
    else (b, false)
  let b1 := res1.1
  let res2 :=
    if b1.x - ballSize > field.x + field.width then
      (if b1.shouldRespawn then Ball.reset { b1 with lastScoreTime := timestamp } drawR
       else { b1 with needsRemoval := true }, true)
    else (b1, false)
  (res2.1, res1.2, res2.2)

/-- Source `Ball.update(timestamp, paddleLeft, paddleRight, shakeAmount,
createMultiball)`: reset-delay gate, trail bookkeeping, gravity, integration,
wall collision, direction-gated paddle collisions, multiball chance, and the
two scoring checks, in source order.  `hasMultiballCallback` models whether a
`createMultiball` callback was supplied, `rMulti` the `Math.random()` draw
compared against 0.05, and `drawL`/`drawR` the velocity draws of the
potential `reset` calls. -/
def Ball.update (b : Ball) (timestamp : ℚ) (paddleLeft paddleRight : Paddle)
    (shakeAmount : ℚ) (hasMultiballCallback : Bool) (rMulti : ℚ)
    (drawL drawR : ResetDraw) : UpdateResult :=
  if b.lastScoreTime > 0 ∧ timestamp - b.lastScoreTime < 500 then
    ⟨b, shakeAmount, false, false, false, false, false⟩
  else
    let b := if b.lastScoreTime > 0 then { b with lastScoreTime := 0 } else b
    let field := getFieldOffset b.canvas b.gameParams
    let ballSize := b.size / 2
    let b :=
      if b.gameParams.trailEffect then
        let trail := b.trail ++ [(b.x, b.y, b.size)]
        { b with trail := if trail.length > 10 then trail.drop 1 else trail }
      else { b with trail := [] }
    let b := { b with dx := b.dx + b.gameParams.ballGravityX,
                      dy := b.dy + b.gameParams.ballGravityY }
    let b := { b with x := b.x + b.dx, y := b.y + b.dy }
    let wres := b.handleWallCollision field ballSize
    let b := wres.1
    let shakeAmount := if wres.2 then shakeAmount + 1 else shakeAmount
    let lres : Ball × Bool :=
      if b.dx < 0 then b.handlePaddleCollision paddleLeft ballSize
      else (b, false)
    let b := lres.1
    let hitL := lres.2
    let rres : Ball × Bool :=
      if b.dx > 0 then b.handlePaddleCollision paddleRight ballSize
      else (b, false)
    let b := rres.1
    let hitR := rres.2
    let paddleHit := hitL || hitR
    let shakeAmount := if paddleHit then shakeAmount + 3 else shakeAmount
    let fired := paddleHit && hasMultiballCallback && b.gameParams.multiball &&
      decide (rMulti < 1/20)
    let sres := b.scoreStep timestamp field ballSize drawL drawR
    ⟨sres.1, shakeAmount, hitL, hitR, sres.2.1, sres.2.2, fired⟩

/-- Options passed to the `Ball` constructor; `none` models a JS `undefined`
field. -/
structure BallOptions where
  x : Option ℚ
  y : Option ℚ
  dx : Option ℚ
  dy : Option ℚ
deriving DecidableEq

/-- JS `a || b` for an optionally-undefined number: `undefined` and `0` are
falsy, any other number is returned as-is. -/
def jsOrDefault (v : Option ℚ) (d : ℚ) : ℚ :=
  match v with
  | none => d
  | some q => if q = 0 then d else q

/-- The `Ball` constructor: field defaults, then either explicit
position/velocity (when `options.dx` and `options.dy` are both defined, with
`options.x || canvas.width/2` and `options.y || canvas.height/2`) or a
`reset` call. -/
def Ball.make (canvas : Canvas) (gameParams : GameParams)
    (options : BallOptions) (draw : ResetDraw) : Ball :=
  let base : Ball :=
    { canvas := canvas
      gameParams := gameParams
      x := 0, y := 0, dx := 0, dy := 0
      size := if gameParams.ballSize = 0 then 10 else gameParams.ballSize
      lastScoreTime := 0
      shouldRespawn := true
      needsRemoval := false
      trail := [] }
  match options.dx, options.dy with
  | some odx, some ody =>
      { base with
        x := jsOrDefault options.x (canvas.width / 2)
        y := jsOrDefault options.y (canvas.height / 2)
        dx := odx
        dy := ody }
  | _, _ => base.reset draw

/-- JS `Math.sign`. -/
def jsSign (q : ℚ) : ℚ :=
  if 0 < q then 1 else if q < 0 then -1 else 0

/-- Source `Paddle.updateAI(targetY, canvas, updatedParams)`: move the paddle centre
toward `targetY` by the sign of the offset times `paddleSpeed * 0.8`, then
clamp `y` into the field. -/
def Paddle.updateAI (p : Paddle) (targetY : ℚ) (canvas : Canvas)
    (gameParams : GameParams) : Paddle :=
  let field := getFieldOffset canvas gameParams
  let paddleCenter := p.y + p.height / 2
  let distanceToTarget := targetY - paddleCenter
  let moveDirection := jsSign distanceToTarget
  let aiSpeed := gameParams.paddleSpeed * (8/10)
  let y1 := p.y + moveDirection * aiSpeed
  { p with y := max field.y (min (field.y + field.height - p.height) y1) }

/-! ### Chaos engine (`src/modules/chaos.js`)

Each continuous/boolean chaos parameter evolves independently inside
`ChaosController.updateParameters`; the colour and invert-controls schedules
touch neither `chaosParams` nor each other and are modelled separately
(`transitionColor` below covers the colour pipeline). -/

/-- One entry of `ChaosController.chaosParams`.  The source objects initially
lack a `transitionStart` field; it is modelled as 0, which is
indistinguishable because the initial `nextChange = 0` makes any first update
at a timestamp `≥ 0` enter the rescheduling branch and overwrite it before
the transition window can open. -/
structure ChaosParam where
  min : ℚ
  max : ℚ
  current : ℚ
  target : ℚ
  nextChange : ℚ
  transitionStart : ℚ
  transitionDuration : ℚ
deriving DecidableEq

/-- The (up to) three `Math.random()` draws one parameter consumes in one
`updateParameters` pass: target, next-change delay, transition duration. -/
structure Rand3 where
  r1 : ℚ
  r2 : ℚ
  r3 : ℚ
deriving DecidableEq

/-- All draws of a `Rand3` lie in `[0, 1)`, the range of `Math.random()`. -/
def Rand3.OK (r : Rand3) : Prop :=
  0 ≤ r.r1 ∧ r.r1 < 1 ∧ 0 ≤ r.r2 ∧ r.r2 < 1 ∧ 0 ≤ r.r3 ∧ r.r3 < 1

instance (r : Rand3) : Decidable r.OK := by unfold Rand3.OK; infer_instance

/-- The body of the `chaosParams.forEach` loop in
`ChaosController.updateParameters`: reschedule when due, then move `current`
toward `target` while inside the transition window. -/
def ChaosParam.step (p : ChaosParam) (timestamp : ℚ) (rnd : Rand3) : ChaosParam :=
  let p :=
    if timestamp ≥ p.nextChange then
      { p with
        target := p.min + rnd.r1 * (p.max - p.min)
        nextChange := timestamp + 5000 + rnd.r2 * 5000
        transitionDuration := 2000 + rnd.r3 * 1000
        transitionStart := timestamp }
    else p
  if timestamp < p.transitionStart + p.transitionDuration then
    { p with current := p.current + (p.target - p.current) *
        Min.min ((timestamp - p.transitionStart) / p.transitionDuration) (1/10) }
  else p

/-- The `ChaosController` state relevant to the parameter schedules. -/
structure ChaosState where
  startTime : ℚ
  params : List ChaosParam
deriving DecidableEq

/-- The `forEach` over `chaosParams`, each parameter consuming its own
independent draws (`rnd i` for the `i`-th parameter). -/
def stepParamsList (ps : List ChaosParam) (timestamp : ℚ) (rnd : ℕ → Rand3) :
    List ChaosParam :=
  match ps with
  | [] => []
  | p :: rest => p.step timestamp (rnd 0) :: stepParamsList rest timestamp (fun i => rnd (i + 1))

/-- Source `ChaosController.update(timestamp, active)`: the inactive early return,
the first-timestamp capture into `startTime` (sentinel 0 = unset), the
10-second start-delay gate, then the parameter pass. -/
def ChaosState.update (s : ChaosState) (timestamp : ℚ) (active : Bool)
    (rnd : ℕ → Rand3) : ChaosState :=
  if !active then s
  else
    let s := if s.startTime = 0 then { s with startTime := timestamp } else s
    if timestamp - s.startTime < 10000 then s
    else { s with params := stepParamsList s.params timestamp rnd }

/-- One observed call to `ChaosController.update`. -/
structure ChaosStep where
  timestamp : ℚ
  active : Bool
  rnd : ℕ → Rand3

/-- A sequence of `update` calls. -/
def ChaosState.run (s : ChaosState) (steps : List ChaosStep) : ChaosState :=
  steps.foldl (fun s st => s.update st.timestamp st.active st.rnd) s

/-- The constructor's `chaosParams` array, instantiated with
`Game.defaultParams` (ballSpeed 3.5, ballSize 10, paddleSize 100,
paddleWidth 15, paddleSpeed 8, gravities 0, field ratios 0.9,
multiball false). -/
def defaultChaosParams : List ChaosParam :=
  [ ⟨2, 7, 7/2, 7/2, 0, 0, 0⟩
  , ⟨5, 15, 10, 10, 0, 0, 0⟩
  , ⟨60, 130, 100, 100, 0, 0, 0⟩
  , ⟨10, 25, 15, 15, 0, 0, 0⟩
  , ⟨5, 12, 8, 8, 0, 0, 0⟩
  , ⟨-1/50, 1/50, 0, 0, 0, 0, 0⟩
  , ⟨-1/10, 1/10, 0, 0, 0, 0, 0⟩
  , ⟨7/10, 19/20, 9/10, 9/10, 0, 0, 0⟩
  , ⟨7/10, 19/20, 9/10, 9/10, 0, 0, 0⟩
  , ⟨0, 1, 0, 0, 0, 0, 0⟩ ]

/-- The freshly constructed controller. -/
def chaosInit : ChaosState := ⟨0, defaultChaosParams⟩

/-! ### Multiball population control (`Game` in `src/modules/paddle.js`)

For the population bound only the ball count, the `multiball` flag, the
rate-limit clock and the spawn-sequence bookkeeping matter; individual ball
states are irrelevant, so the orchestrator is modelled at that granularity,
with each guard transcribed from its method. -/

/-- Source `Game.maxBalls`. -/
def maxBalls : ℕ := 5

/-- In-flight `createMultiballSequence` bookkeeping (the closure state of the
`setInterval` callback). -/
structure SeqState where
  ballsToCreate : ℕ
  ballsCreated : ℕ
deriving DecidableEq

/-- Orchestrator state relevant to the ball-population bound. -/
structure GameState where
  ballCount : ℕ
  multiball : Bool
  multiballActive : Bool
  lastMultiballTime : ℚ
  seq : Option SeqState
deriving DecidableEq

/-- Source `Game.createMultiball(sourceBall)`: refuse when at capacity, when the
feature is off, or within 500ms of the previous spawn; otherwise push one
ball and stamp the clock. -/
def GameState.createMultiball (g : GameState) (now : ℚ) : GameState :=
  if maxBalls ≤ g.ballCount then g
  else if !g.multiball then g
  else if now - g.lastMultiballTime < 500 then g
  else { g with ballCount := g.ballCount + 1, lastMultiballTime := now }

/-- One firing of the `createMultiballSequence` interval callback: stop when
the quota is reached, multiball turned off, or the collection is full;
otherwise push one ball. -/
def GameState.seqFire (g : GameState) : GameState :=
  match g.seq with
  | none => g
  | some st =>
      if st.ballsToCreate ≤ st.ballsCreated ∨ !g.multiball ∨ maxBalls ≤ g.ballCount then
        { g with seq := none }
      else
        { g with ballCount := g.ballCount + 1
                 seq := some { st with ballsCreated := st.ballsCreated + 1 } }

/-- The per-tick population block of `Game.gameLoop`: on a false→true
`multiball` transition with headroom, start a spawn sequence (cancelling any
in-flight one); when `multiball` is off, clear the activation flag. -/
def GameState.tickPopulation (g : GameState) : GameState :=
  if g.multiball ∧ ¬g.multiballActive ∧ g.ballCount < maxBalls then
    { g with multiballActive := true
             seq := some ⟨maxBalls - g.ballCount, 0⟩ }
  else if !g.multiball then { g with multiballActive := false }
  else g

/-- The population-affecting events of the orchestrator, interleavable in any
order: a paddle-hit-triggered spawn attempt, a sequence timer firing, the
post-tick removal filter (dropping any number of balls), the empty-collection
refill, a chaos flip of the `multiball` flag, and the per-tick population
block. -/
inductive GameEvent where
  | spawn (now : ℚ)
  | seqTimer
  | remove (n : ℕ)
  | refill
  | chaosSet (b : Bool)
  | tickPopulation
deriving DecidableEq

/-- Apply one event to the orchestrator state. -/
def GameState.applyEvent (g : GameState) : GameEvent → GameState
  | .spawn now => g.createMultiball now
  | .seqTimer => g.seqFire
  | .remove n => { g with ballCount := g.ballCount - n }
  | .refill => if g.ballCount = 0 then { g with ballCount := 1 } else g
  | .chaosSet b => { g with multiball := b }
  | .tickPopulation => g.tickPopulation

/-- Run a whole interleaving of events. -/
def GameState.runEvents (g : GameState) (events : List GameEvent) : GameState :=
  events.foldl GameState.applyEvent g

/-- The state right after `Game.createGameObjects`: one ball, multiball off. -/
def gameInit : GameState :=
  { ballCount := 1
    multiball := false
    multiballActive := false
    lastMultiballTime := 0
    seq := none }

/-! ### Colour utilities (`src/modules/utils.js`)

JS strings are modelled as `List Char`. -/

/-- A character the regex class `[a-f\d]` with the `i` flag accepts
(code points of `0`–`9`, `a`–`f`, `A`–`F`). -/
def isHexDigitChar (ch : Char) : Bool :=
  (48 ≤ ch.toNat && ch.toNat ≤ 57) ||
  (97 ≤ ch.toNat && ch.toNat ≤ 102) ||
  (65 ≤ ch.toNat && ch.toNat ≤ 70)

/-- Value `parseInt` assigns to one hexadecimal digit (case-insensitive). -/
def hexDigitVal (ch : Char) : ℕ :=
  if 48 ≤ ch.toNat ∧ ch.toNat ≤ 57 then ch.toNat - 48
  else if 97 ≤ ch.toNat ∧ ch.toNat ≤ 102 then ch.toNat - 87
  else if 65 ≤ ch.toNat ∧ ch.toNat ≤ 70 then ch.toNat - 55
  else 0

/-- The optional leading `#` of the regex: `#` is not a hex digit, so the
optional group commits exactly when the string starts with `#`. -/
def stripHash (s : List Char) : List Char :=
  match s with
  | '#' :: rest => rest
  | _ => s

/-- The regex `/^#?([a-f\d]{2})([a-f\d]{2})([a-f\d]{2})$/i`: strip one
optional leading `#`, then require exactly six hex digits, parsed in pairs. -/
def hexMatch (s : List Char) : Option (ℕ × ℕ × ℕ) :=
  match stripHash s with
  | [a, b, c, d, e, f] =>
      if isHexDigitChar a && isHexDigitChar b && isHexDigitChar c &&
         isHexDigitChar d && isHexDigitChar e && isHexDigitChar f then
        some (16 * hexDigitVal a + hexDigitVal b,
              16 * hexDigitVal c + hexDigitVal d,
              16 * hexDigitVal e + hexDigitVal f)
      else none
  | _ => none

/-- Source `hexToRgb(hex)`: regex parse with the white `{r:255,g:255,b:255}`
fallback.  Total by construction. -/
def hexToRgb (hex : List Char) : ℕ × ℕ × ℕ :=
  match hexMatch hex with
  | some rgb => rgb
  | none => (255, 255, 255)

/-- Lowercase hexadecimal digit characters, as produced by JS
`Number.prototype.toString(16)`. -/
def hexDigitChar (n : ℕ) : Char :=
  if n < 10 then Char.ofNat (48 + n) else Char.ofNat (87 + n)

/-- Minimal-length base-16 rendering of a natural number (the behaviour of
`toString(16)` on a non-negative integer). -/
def natToHex (n : ℕ) : List Char :=
  if _h : n < 16 then [hexDigitChar n]
  else natToHex (n / 16) ++ [hexDigitChar (n % 16)]
decreasing_by exact Nat.div_lt_self (by omega) (by omega)

/-- Source `rgbToHex(r, g, b)`: `"#" + ((1 << 24) + (⌊r⌋ << 16) + (⌊g⌋ << 8) +
⌊b⌋).toString(16).slice(1)`.  The `Int.toNat` is the identity whenever the
floored channels are non-negative, which covers every in-range input (for
negative packed values JS's formatting differs, but no caller reaches that). -/
def rgbToHex (r g b : ℚ) : List Char :=
  let n : ℤ := 2 ^ 24 + ⌊r⌋ * 2 ^ 16 + ⌊g⌋ * 2 ^ 8 + ⌊b⌋
  '#' :: (natToHex n.toNat).drop 1

/-- Source `transitionColor(currentColor, targetColor, speed)`: parse both colours,
move each channel `speed` of the way toward the target, re-pack to hex. -/
def transitionColor (currentColor targetColor : List Char) (speed : ℚ) : List Char :=
  let currentRgb := hexToRgb currentColor
  let targetRgb := hexToRgb targetColor
  let newR := (currentRgb.1 : ℚ) + ((targetRgb.1 : ℚ) - currentRgb.1) * speed
  let newG := (currentRgb.2.1 : ℚ) + ((targetRgb.2.1 : ℚ) - currentRgb.2.1) * speed
  let newB := (currentRgb.2.2 : ℚ) + ((targetRgb.2.2 : ℚ) - currentRgb.2.2) * speed
  rgbToHex newR newG newB

/-- The claim's well-formedness predicate for a colour string: a `#` followed
by exactly six hexadecimal digits (hence each channel an integer in
`[0, 255]`). -/
def wellFormedHexColor (s : List Char) : Bool :=
  match s with
  | c :: rest => (c == '#') && decide (rest.length = 6) && rest.all isHexDigitChar
  | [] => false

/-- The claim's description of the strings `hexToRgb` accepts: exactly six
hexadecimal digits with an optional leading `#`. -/
def sixHexOptionalHash (s : List Char) : Bool :=
  decide ((stripHash s).length = 6) && (stripHash s).all isHexDigitChar

/-! ### The `Ball.reset` velocity draw, over `ℝ` (`src/unnamed/part_000`)

The angle/speed draw uses `Math.cos`/`Math.sin`, so this one computation is
modelled over the reals; `rAngle`, `rDir`, `rSpeed` are the three
`Math.random()` draws. -/

/-- The velocity `Ball.reset` computes: a horizontally biased angle in
`[-π/5, π/5)`, a random side, a speed in `[max(2, 0.8·ballSpeed),
ballSpeed]`, and the `|dx| < 1 → dx = ±1` floor. -/
noncomputable def resetVel (ballSpeed rAngle rDir rSpeed : ℝ) : ℝ × ℝ :=
  let angle := rAngle * (Real.pi / 2.5) - Real.pi / 5
  let direction : ℝ := if rDir < 1/2 then 1 else -1
  let minSpeed := max 2 (ballSpeed * (8/10))
  let speed := minSpeed + rSpeed * (ballSpeed - minSpeed)
  let dx := Real.cos angle * speed * direction
  let dy := Real.sin angle * speed
  let dx2 := if |dx| < 1 then direction * 1 else dx
  (dx2, dy)

/-! ## Claim C1 — chaos parameter bound invariant -/

/-- Convex-combination bound: moving from `c` toward `tg` by a fraction
`a ∈ [0, 1]` stays inside any interval containing both endpoints. -/
theorem move_toward_mem {lo hi c tg a : ℚ} (h1 : lo ≤ c) (h2 : c ≤ hi)
    (h3 : lo ≤ tg) (h4 : tg ≤ hi) (h5 : 0 ≤ a) (h6 : a ≤ 1) :
    lo ≤ c + (tg - c) * a ∧ c + (tg - c) * a ≤ hi := by
  constructor <;> nlinarith

/-- Running invariant of one chaos parameter: ordered bounds, `current` and
`target` inside them, and a transition window opened no later than `t0`. -/
def ChaosParam.Good (t0 : ℚ) (p : ChaosParam) : Prop :=
  p.min ≤ p.max ∧ p.min ≤ p.current ∧ p.current ≤ p.max ∧
  p.min ≤ p.target ∧ p.target ≤ p.max ∧ p.transitionStart ≤ t0

theorem ChaosParam.Good.mono {t0 t1 : ℚ} {p : ChaosParam} (h : p.Good t0)
    (ht : t0 ≤ t1) : p.Good t1 :=
  ⟨h.1, h.2.1, h.2.2.1, h.2.2.2.1, h.2.2.2.2.1, h.2.2.2.2.2.trans ht⟩

/-- One `updateParameters` pass on one parameter preserves the invariant, as
long as the call's timestamp is no earlier than every previously observed
one. -/
theorem ChaosParam.step_good {t0 t : ℚ} {p : ChaosParam} {rnd : Rand3}
    (hg : p.Good t0) (ht : t0 ≤ t) (hr : rnd.OK) : (p.step t rnd).Good t := by
  obtain ⟨hmm, h1, h2, h3, h4, h5⟩ := hg
  obtain ⟨ha, hb, hc, hd, he, hf⟩ := hr
  have hts : p.transitionStart ≤ t := h5.trans ht
  have htg : p.min ≤ p.min + rnd.r1 * (p.max - p.min) ∧
      p.min + rnd.r1 * (p.max - p.min) ≤ p.max := by
    constructor <;> nlinarith
  simp only [ChaosParam.step]
  split_ifs with hre htr htr
  · -- rescheduled and inside the fresh transition window
    have hdur : (0 : ℚ) < 2000 + rnd.r3 * 1000 := by nlinarith
    have hfrac : (0 : ℚ) ≤ Min.min ((t - t) / (2000 + rnd.r3 * 1000)) (1/10) ∧
        Min.min ((t - t) / (2000 + rnd.r3 * 1000)) (1/10) ≤ 1 := by
      constructor
      · exact le_min (div_nonneg (by linarith) hdur.le) (by norm_num)
      · exact (min_le_right _ _).trans (by norm_num)
    have := move_toward_mem h1 h2 htg.1 htg.2 hfrac.1 hfrac.2
    exact ⟨hmm, this.1, this.2, htg.1, htg.2, le_refl t⟩
  · -- rescheduled, window already over
    exact ⟨hmm, h1, h2, htg.1, htg.2, le_refl t⟩
  · -- not rescheduled, inside the old transition window
    have hdur : (0 : ℚ) < p.transitionDuration := by linarith
    have hfrac : (0 : ℚ) ≤ Min.min ((t - p.transitionStart) / p.transitionDuration) (1/10) ∧
        Min.min ((t - p.transitionStart) / p.transitionDuration) (1/10) ≤ 1 := by
      constructor
      · exact le_min (div_nonneg (by linarith) hdur.le) (by norm_num)
      · exact (min_le_right _ _).trans (by norm_num)
    have := move_toward_mem h1 h2 h3 h4 hfrac.1 hfrac.2
    exact ⟨hmm, this.1, this.2, h3, h4, hts⟩
  · -- untouched
    exact ⟨hmm, h1, h2, h3, h4, hts⟩

/-- The `forEach` pass preserves the invariant for every parameter. -/
theorem stepParamsList_good {t0 t : ℚ} (ht : t0 ≤ t) :
    ∀ (ps : List ChaosParam) (rnd : ℕ → Rand3),
      (∀ p ∈ ps, p.Good t0) → (∀ i, (rnd i).OK) →
      ∀ q ∈ stepParamsList ps t rnd, q.Good t := by
  intro ps
  induction ps with
  | nil => intro rnd _ _ q hq; simp [stepParamsList] at hq
  | cons p rest ih =>
      intro rnd hg hr q hq
      simp only [stepParamsList, List.mem_cons] at hq
      rcases hq with rfl | hq
      · exact ChaosParam.step_good (hg p (by simp)) ht (hr 0)
      · exact ih (fun i => rnd (i + 1)) (fun x hx => hg x (by simp [hx]))
          (fun i => hr (i + 1)) q hq

/-- One `ChaosController.update` call preserves the invariant. -/
theorem ChaosState.update_good {t0 t : ℚ} {s : ChaosState} {active : Bool}
    {rnd : ℕ → Rand3} (hg : ∀ p ∈ s.params, p.Good t0) (ht : t0 ≤ t)
    (hr : ∀ i, (rnd i).OK) :
    ∀ p ∈ (s.update t active rnd).params, p.Good t := by
  have hmono : ∀ p ∈ s.params, p.Good t := fun p hp => (hg p hp).mono ht
  simp only [ChaosState.update]
  split_ifs with h1 h2 h3 h4 <;>
    first
      | exact hmono
      | exact stepParamsList_good (le_refl t) s.params _ hmono hr

/-- A whole chronological run of `update` calls keeps every parameter's
`current` and `target` within bounds. -/
theorem ChaosState.run_good :
    ∀ (steps : List ChaosStep) (s : ChaosState) (t0 : ℚ),
      (∀ p ∈ s.params, p.Good t0) →
      (∀ st ∈ steps, ∀ i, (st.rnd i).OK) →
      List.Chain' (fun a b => a.timestamp ≤ b.timestamp) steps →
      (∀ st ∈ steps.head?, t0 ≤ st.timestamp) →
      ∀ p ∈ (s.run steps).params,
        p.min ≤ p.current ∧ p.current ≤ p.max := by
  intro steps
  induction steps with
  | nil =>
      intro s t0 hg _ _ _ p hp
      exact ⟨(hg p hp).2.1, (hg p hp).2.2.1⟩
  | cons st rest ih =>
      intro s t0 hg hr hchain hhead
      have hts : t0 ≤ st.timestamp := hhead st rfl
      have h1 : ∀ p ∈ (s.update st.timestamp st.active st.rnd).params,
          p.Good st.timestamp :=
        ChaosState.update_good hg hts (hr st (by simp))
      rw [List.chain'_cons'] at hchain
      exact ih (s.update st.timestamp st.active st.rnd) st.timestamp h1
        (fun x hx => hr x (by simp [hx])) hchain.2 hchain.1

/-- Claim C1 (amended): for every chronological sequence of calls to
`ChaosController.update` — timestamps non-negative and non-decreasing, as
`requestAnimationFrame` delivers them — and every random draw, every chaos
parameter's `current` (and `target`) stays within its `[min, max]` bounds,
starting from the constructor's defaults.  (The claim as frozen also covers
non-monotone timestamp sequences; those can drive `current` out of bounds,
see the counterexample.) -/
theorem chaosParams_current_within_bounds (steps : List ChaosStep)
    (hmono : List.Chain' (fun a b => a.timestamp ≤ b.timestamp) steps)
    (hnn : ∀ st ∈ steps, 0 ≤ st.timestamp)
    (hrnd : ∀ st ∈ steps, ∀ i, (st.rnd i).OK) :
    ((chaosInit.run steps).params.all fun p =>
      decide (p.min ≤ p.current ∧ p.current ≤ p.max)) = true := by
  rw [List.all_eq_true]
  intro p hp
  rw [decide_eq_true_eq]
  refine ChaosState.run_good steps chaosInit 0 ?_ hrnd hmono ?_ p hp
  · intro q hq
    fin_cases hq <;> norm_num [ChaosParam.Good]
  · intro st hst
    exact hnn st (List.mem_of_mem_head? hst)

/-- Witness run for C1: a single in-order update call at `t = 1000`. -/
def witnessChaosSteps : List ChaosStep := [⟨1000, true, fun _ => ⟨0, 0, 0⟩⟩]

/-- Witness for the amended C1 theorem at a concrete chronological run. -/
theorem chaosParams_current_within_bounds_witness :
    ((chaosInit.run witnessChaosSteps).params.all fun p =>
      decide (p.min ≤ p.current ∧ p.current ≤ p.max)) = true := by
  apply chaosParams_current_within_bounds
  · simp [witnessChaosSteps]
  · intro st hst
    fin_cases hst
    norm_num
  · intro st hst i
    fin_cases hst
    exact ⟨le_refl 0, by norm_num, le_refl 0, by norm_num,
      le_refl 0, by norm_num⟩

/-- Non-monotone timestamp run refuting C1 as frozen: gate passes at
`t = 31000` (scheduling a target of 6.9 for `ballSpeed`), then a call at the
earlier `t = 30000` makes the transition progress negative, extrapolating
`current` away from the target. -/
def cexChaosSteps : List ChaosStep :=
  [ ⟨0, true, fun _ => ⟨0, 0, 0⟩⟩
  , ⟨20000, true, fun _ => ⟨0, 0, 0⟩⟩
  , ⟨31000, true, fun _ => ⟨49/50, 0, 0⟩⟩
  , ⟨30000, true, fun _ => ⟨49/50, 0, 0⟩⟩ ]

/-- Counterexample to claim C1 as frozen: with randomized (non-monotone)
timestamps `0, 20000, 31000, 30000` and draws in `[0, 1)`, the `ballSpeed`
parameter (bounds `[2, 7]`, starting at 3.5) ends with `current = 1.8 < 2`,
outside its `[min, max]` range. -/
theorem chaosParams_out_of_bounds_cex :
    ((chaosInit.run cexChaosSteps).params.head?.map fun p => p.current) =
      some (9/5) ∧
    ((chaosInit.run cexChaosSteps).params.head?.map fun p => p.min) =
      some 2 ∧
    (9/5 : ℚ) < 2 := by
  refine ⟨?_, ?_, by norm_num⟩ <;>
    norm_num [ChaosState.run, ChaosState.update, stepParamsList,
      ChaosParam.step, chaosInit, defaultChaosParams, cexChaosSteps,
      min_def, List.foldl]

/-! ## Claims C2, C3, C4 — collision resolution -/

/-- Numeric part of `Game.defaultParams`. -/
def defaultParamsQ : GameParams :=
  { ballSpeed := 7/2, ballSize := 10, paddleSize := 100, paddleWidth := 15
    paddleSpeed := 8, ballGravityX := 0, ballGravityY := 0
    fieldWidth := 9/10, fieldHeight := 9/10
    multiball := false, trailEffect := true }

/-- A ball with the default parameters on an 800×600 canvas, at the given
position and velocity — shared base for concrete scenarios. -/
def ballAt (x y dx dy : ℚ) : Ball :=
  { canvas := ⟨800, 600⟩, gameParams := defaultParamsQ
    x := x, y := y, dx := dx, dy := dy, size := 10
    lastScoreTime := 0, shouldRespawn := true, needsRemoval := false
    trail := [] }

/-- Claim C2 (amended): paddle collisions resolved through a horizontal face
(the branch taken when the minimal penetration is `overlapLeft` or
`overlapRight`) always flip the sign of `dx`; combined with `Ball.update`
testing the left paddle only while `dx < 0` and the right paddle only while
`dx > 0`, a horizontal-face resolution makes an immediate second test of the
same paddle impossible before another `dx` sign change.  (Vertical-face
resolutions keep `dx`'s sign and permit an immediate repeat — see the
counterexample.) -/
theorem paddleCollision_horizontal_face_flips_dx (b : Ball) (p : Paddle) (s : ℚ)
    (hov : b.x + s ≥ p.x ∧ b.x - s ≤ p.x + p.width ∧
      b.y + s ≥ p.y ∧ b.y - s ≤ p.y + p.height)
    (hface :
      min (min (b.x + s - p.x) (p.x + p.width - (b.x - s)))
          (min (b.y + s - p.y) (p.y + p.height - (b.y - s))) = b.x + s - p.x ∨
      min (min (b.x + s - p.x) (p.x + p.width - (b.x - s)))
          (min (b.y + s - p.y) (p.y + p.height - (b.y - s))) =
        p.x + p.width - (b.x - s)) :
    (b.handlePaddleCollision p s).2 = true ∧
    (b.dx < 0 → 0 < (b.handlePaddleCollision p s).1.dx) ∧
    (0 < b.dx → (b.handlePaddleCollision p s).1.dx < 0) := by
  simp only [Ball.handlePaddleCollision]
  rw [if_pos hov, if_pos hface]
  refine ⟨rfl, ?_, ?_⟩ <;> intro hdx <;>
    simp only [apply_ite Ball.dx, ite_self] <;>
    split_ifs with h2 h3 <;> nlinarith

/-- Ball overlapping the top face of the left paddle while moving up-left:
the vertical-face counterexample configuration for C2. -/
def cex2Ball : Ball := ballAt 110 103 (-3) (-2)

/-- The left paddle for the C2 counterexample. -/
def cex2Paddle : Paddle := ⟨100, 100, 15, 100, true⟩

/-- Counterexample to claim C2 as frozen: with `dx = -3 < 0` (so the left
paddle is the one legitimately tested) the resolution picks the top face,
leaves the ball flush above the paddle (`y + s = paddle.y`) yet with
`dy = 2.2 > 0`, i.e. moving back toward the struck paddle, and `dx = -3.3`
still negative — so the very next tick tests the same (left) paddle again
with no intervening velocity sign flip on the relevant axis. -/
theorem paddleCollision_vertical_face_not_away_cex :
    (cex2Ball.handlePaddleCollision cex2Paddle 5).2 = true ∧
    (cex2Ball.handlePaddleCollision cex2Paddle 5).1.y + 5 = cex2Paddle.y ∧
    0 < (cex2Ball.handlePaddleCollision cex2Paddle 5).1.dy ∧
    (cex2Ball.handlePaddleCollision cex2Paddle 5).1.dx < 0 := by
  norm_num [Ball.handlePaddleCollision, cex2Ball, cex2Paddle, ballAt, min_def]

/-- Ball overlapping the right paddle's left face while moving right: a
horizontal-face hit for the C2 witness (the scenario of spec §8). -/
def wit2Ball : Ball := ballAt 788 240 3 5

/-- The right paddle for the C2 witness. -/
def wit2Paddle : Paddle := ⟨770, 200, 15, 100, false⟩

/-- Witness for the amended C2 theorem at a concrete horizontal-face hit. -/
theorem paddleCollision_horizontal_face_flips_dx_witness :
    (wit2Ball.handlePaddleCollision wit2Paddle 5).2 = true ∧
    (wit2Ball.dx < 0 → 0 < (wit2Ball.handlePaddleCollision wit2Paddle 5).1.dx) ∧
    (0 < wit2Ball.dx → (wit2Ball.handlePaddleCollision wit2Paddle 5).1.dx < 0) :=
  paddleCollision_horizontal_face_flips_dx wit2Ball wit2Paddle 5
    (by norm_num [wit2Ball, wit2Paddle, ballAt])
    (Or.inr (by norm_num [wit2Ball, wit2Paddle, ballAt, min_def]))

/-- Claim C3 (amended): provided the ball fits in the field (`2·radius ≤
field.height`), whenever wall resolution reports a collision the ball's
centre ends inside `[field.y + radius, field.y + field.height - radius]`
(never still penetrating); a top hit ends exactly on the top boundary with
`dy = |dy|` (non-upward), a bottom hit exactly on the bottom boundary with
`dy = -|dy|` (non-downward).  (Without the fit hypothesis both branches can
fire in one call and the claimed interval is empty — see the
counterexample.) -/
theorem wallCollision_resolves_outward (b : Ball) (f : FieldRect) (s : ℚ)
    (hh : 2 * s ≤ f.height) :
    ((b.handleWallCollision f s).2 = true →
      f.y + s ≤ (b.handleWallCollision f s).1.y ∧
      (b.handleWallCollision f s).1.y ≤ f.y + f.height - s) ∧
    (b.y - s < f.y →
      (b.handleWallCollision f s).1.y = f.y + s ∧
      (b.handleWallCollision f s).1.dy = |b.dy|) ∧
    (¬(b.y - s < f.y) → b.y + s > f.y + f.height →
      (b.handleWallCollision f s).1.y = f.y + f.height - s ∧
      (b.handleWallCollision f s).1.dy = -|b.dy|) := by
  simp only [Ball.handleWallCollision]
  split_ifs with h1 h2 h2 <;> dsimp only at *
  · exact absurd h2 (by linarith)
  · exact ⟨fun _ => ⟨le_refl _, by linarith⟩,
      fun _ => ⟨rfl, rfl⟩, fun hn _ => absurd h1 hn⟩
  · exact ⟨fun _ => ⟨by linarith, le_refl _⟩,
      fun ht => absurd ht h1, fun _ _ => ⟨rfl, rfl⟩⟩
  · exact ⟨fun hc => by simp at hc,
      fun ht => absurd ht h1, fun _ hb => absurd hb h2⟩

/-- Short field for the C3 counterexample: height 8, ball radius 5. -/
def cex3Field : FieldRect := ⟨0, 0, 100, 8⟩

/-- Ball penetrating the top of the short field. -/
def cex3Ball : Ball := ballAt 50 2 0 3

/-- Counterexample to claim C3 as frozen: with radius 5 in a field of height
8, resolution reports a collision, the top boundary was hit
(`y - radius < field.y`), yet the final centre `y = 3` still penetrates the
claimed corrected boundary (`y < field.y + radius`) and the final `dy = -3`
is upward, not downward. -/
theorem wallCollision_still_penetrating_cex :
    (cex3Ball.handleWallCollision cex3Field 5).2 = true ∧
    cex3Ball.y - 5 < cex3Field.y ∧
    (cex3Ball.handleWallCollision cex3Field 5).1.y < cex3Field.y + 5 ∧
    (cex3Ball.handleWallCollision cex3Field 5).1.dy < 0 := by
  norm_num [Ball.handleWallCollision, cex3Ball, cex3Field, ballAt]

/-- Tall-enough field for the C3 witness. -/
def wit3Field : FieldRect := ⟨0, 0, 100, 50⟩

/-- Ball penetrating the top of the witness field. -/
def wit3Ball : Ball := ballAt 50 2 0 (-3)

/-- Witness for the amended C3 theorem at a concrete top-wall hit. -/
theorem wallCollision_resolves_outward_witness :
    ((wit3Ball.handleWallCollision wit3Field 5).2 = true →
      wit3Field.y + 5 ≤ (wit3Ball.handleWallCollision wit3Field 5).1.y ∧
      (wit3Ball.handleWallCollision wit3Field 5).1.y ≤
        wit3Field.y + wit3Field.height - 5) ∧
    (wit3Ball.y - 5 < wit3Field.y →
      (wit3Ball.handleWallCollision wit3Field 5).1.y = wit3Field.y + 5 ∧
      (wit3Ball.handleWallCollision wit3Field 5).1.dy = |wit3Ball.dy|) ∧
    (¬(wit3Ball.y - 5 < wit3Field.y) →
      wit3Ball.y + 5 > wit3Field.y + wit3Field.height →
      (wit3Ball.handleWallCollision wit3Field 5).1.y =
        wit3Field.y + wit3Field.height - 5 ∧
      (wit3Ball.handleWallCollision wit3Field 5).1.dy = -|wit3Ball.dy|) :=
  wallCollision_resolves_outward wit3Ball wit3Field 5 (by norm_num [wit3Field])

/-- Claim C4 (amended): every successful paddle collision multiplies `|dx|`
by at least 1.1 (exactly 1.1 except when the minimum-horizontal-speed clamp
raises it further), so `|dx|` is non-decreasing across any run of paddle
collisions; `|dy|`, however, is multiplied by 1.1 only on vertical-face
hits — on horizontal-face hits `dy` is re-derived from the hit position and
can shrink (see the counterexample). -/
theorem paddleCollision_grows_dx (b : Ball) (p : Paddle) (s : ℚ)
    (hcol : (b.handlePaddleCollision p s).2 = true) :
    (11/10) * |b.dx| ≤ |(b.handlePaddleCollision p s).1.dx| := by
  simp only [Ball.handlePaddleCollision] at hcol ⊢
  by_cases hov : b.x + s ≥ p.x ∧ b.x - s ≤ p.x + p.width ∧
      b.y + s ≥ p.y ∧ b.y - s ≤ p.y + p.height
  · rw [if_pos hov]
    have habs : |(1 : ℚ) + 1/10| = 11/10 := by norm_num
    simp only [apply_ite Ball.dx, ite_self]
    split_ifs with h1 h2 h3 <;>
      rw [abs_mul, habs] <;>
      simp only [abs_neg, abs_two] at * <;>
      nlinarith [abs_nonneg b.dx]
  · rw [if_neg hov] at hcol
    exact absurd hcol (by simp)

/-- Ball striking the exact centre of the left paddle's right face: the
`dy`-shrinking configuration for C4. -/
def cex4Ball : Ball := ballAt 118 150 (-3) 5

/-- Counterexample to claim C4 as frozen: a successful paddle collision
(centre hit on a horizontal face) rewrites `dy` from the hit position —
incoming `|dy| = 5`, outgoing `dy = 0` — so the collision does not increase
both components' magnitudes by 10%, and `|dy|` is not non-decreasing across
consecutive paddle collisions. -/
theorem paddleCollision_shrinks_dy_cex :
    (cex4Ball.handlePaddleCollision cex2Paddle 5).2 = true ∧
    (cex4Ball.handlePaddleCollision cex2Paddle 5).1.dy = 0 ∧
    |(cex4Ball.handlePaddleCollision cex2Paddle 5).1.dy| < |cex4Ball.dy| := by
  norm_num [Ball.handlePaddleCollision, cex4Ball, cex2Paddle, ballAt, min_def]

/-- Witness for the amended C4 theorem: the C2 witness hit grows `|dx|` from
3 to 3.3. -/
theorem paddleCollision_grows_dx_witness :
    (11/10) * |wit2Ball.dx| ≤
      |(wit2Ball.handlePaddleCollision wit2Paddle 5).1.dx| :=
  paddleCollision_grows_dx wit2Ball wit2Paddle 5
    (by norm_num [Ball.handlePaddleCollision, wit2Ball, wit2Paddle, ballAt, min_def])

/-! ## Claim C6 — scoring exclusivity

Collision handling rewrites only position/velocity fields; these preservation
lemmas let the scoring analysis see that the field geometry the scoring
checks use is still derived from the unchanged canvas and parameters. -/

theorem Ball.handleWallCollision_canvas (b : Ball) (f : FieldRect) (s : ℚ) :
    (b.handleWallCollision f s).1.canvas = b.canvas := by
  simp only [Ball.handleWallCollision]
  split_ifs <;> rfl

theorem Ball.handleWallCollision_gameParams (b : Ball) (f : FieldRect) (s : ℚ) :
    (b.handleWallCollision f s).1.gameParams = b.gameParams := by
  simp only [Ball.handleWallCollision]
  split_ifs <;> rfl

theorem Ball.handlePaddleCollision_canvas (b : Ball) (p : Paddle) (s : ℚ) :
    (b.handlePaddleCollision p s).1.canvas = b.canvas := by
  simp only [Ball.handlePaddleCollision]
  split_ifs <;> rfl

theorem Ball.handlePaddleCollision_gameParams (b : Ball) (p : Paddle) (s : ℚ) :
    (b.handlePaddleCollision p s).1.gameParams = b.gameParams := by
  simp only [Ball.handlePaddleCollision]
  split_ifs <;> rfl

theorem condPaddle_canvas (c : Prop) [Decidable c] (b : Ball) (p : Paddle)
    (s : ℚ) :
    ((if c then b.handlePaddleCollision p s else (b, false)).1).canvas =
      b.canvas := by
  split_ifs with h
  · exact Ball.handlePaddleCollision_canvas b p s
  · rfl

theorem condPaddle_gameParams (c : Prop) [Decidable c] (b : Ball) (p : Paddle)
    (s : ℚ) :
    ((if c then b.handlePaddleCollision p s else (b, false)).1).gameParams =
      b.gameParams := by
  split_ifs with h
  · exact Ball.handlePaddleCollision_gameParams b p s
  · rfl

theorem ite_ball_canvas (c : Prop) [Decidable c] (b1 b2 : Ball) :
    (if c then b1 else b2).canvas = if c then b1.canvas else b2.canvas :=
  apply_ite Ball.canvas c b1 b2

theorem ite_ball_gameParams (c : Prop) [Decidable c] (b1 b2 : Ball) :
    (if c then b1 else b2).gameParams =
      if c then b1.gameParams else b2.gameParams :=
  apply_ite Ball.gameParams c b1 b2

/-- The two scoring checks of `Ball.update` are mutually exclusive: with a
non-negative radius and a non-negative field width, whichever ball enters
them (the reset inside the first branch included), at most one boundary exit
can fire. -/
theorem Ball.scoreStep_not_both (b : Ball) (t : ℚ) (f : FieldRect) (s : ℚ)
    (dL dR : ResetDraw) (hs : 0 ≤ s) (hw : 0 ≤ f.width)
    (hf : f = getFieldOffset b.canvas b.gameParams) :
    ¬((b.scoreStep t f s dL dR).2.1 = true ∧
      (b.scoreStep t f s dL dR).2.2 = true) := by
  subst hf
  simp only [Ball.scoreStep, Ball.reset]
  split_ifs with h1 h2 h3 h4 h3 <;> dsimp only at * <;> simp_all <;> linarith

/-- Claim C6: in a single `Ball.update` tick, with non-negative ball radius
(`size/2`) and non-negative field width, the left-exit and right-exit scoring
branches can never both fire — even accounting for the recentring the
in-branch `reset` performs. -/
theorem ballUpdate_scoring_exclusive (b : Ball) (t : ℚ) (pl pr : Paddle)
    (shake : ℚ) (cb : Bool) (rM : ℚ) (dL dR : ResetDraw)
    (hsize : 0 ≤ b.size)
    (hwidth : 0 ≤ b.canvas.width * b.gameParams.fieldWidth) :
    ¬((b.update t pl pr shake cb rM dL dR).exitLeft = true ∧
      (b.update t pl pr shake cb rM dL dR).exitRight = true) := by
  by_cases h1 : b.lastScoreTime > 0 ∧ t - b.lastScoreTime < 500
  · simp [Ball.update, if_pos h1]
  · simp only [Ball.update, if_neg h1]
    refine Ball.scoreStep_not_both _ _ _ _ _ _ ?_ ?_ ?_
    · -- radius non-negative
      split_ifs <;> exact by show (0:ℚ) ≤ b.size / 2; linarith
    · -- field width non-negative
      split_ifs <;> exact hwidth
    · -- the canvas / parameters feeding the geometry are unchanged
      simp only [condPaddle_canvas, condPaddle_gameParams,
        Ball.handleWallCollision_canvas, Ball.handleWallCollision_gameParams,
        ite_ball_canvas, ite_ball_gameParams, ite_self]

/-- Witness for C6 at a concrete mid-field tick. -/
theorem ballUpdate_scoring_exclusive_witness :
    ¬(((ballAt 400 300 3 1).update 1000 cex2Paddle wit2Paddle 0 false (1/2)
        ⟨1, 1⟩ ⟨1, 1⟩).exitLeft = true ∧
      ((ballAt 400 300 3 1).update 1000 cex2Paddle wit2Paddle 0 false (1/2)
        ⟨1, 1⟩ ⟨1, 1⟩).exitRight = true) :=
  ballUpdate_scoring_exclusive (ballAt 400 300 3 1) 1000 cex2Paddle wit2Paddle
    0 false (1/2) ⟨1, 1⟩ ⟨1, 1⟩
    (by norm_num [ballAt, defaultParamsQ])
    (by norm_num [ballAt, defaultParamsQ])

/-! ## Claim C5 — reset velocity bounds -/

/-- Claim C5: for any `ballSpeed ≥ 2` (all speeds the game's configuration
reaches) and any random draws, the velocity `Ball.reset` produces satisfies
`|dx| ≥ 1` — the `±1` floor never even fires because the horizontally biased
angle keeps `|dx| ≥ cos(π/5) · speed ≥ 1.6` — and the total speed
`√(dx² + dy²)` equals the drawn speed, which lies within
`[max(2, 0.8·ballSpeed) · 0.999, ballSpeed · 1.001]`. -/
theorem resetVel_speed_spec (bs rA rD rS : ℝ)
    (hbs : 2 ≤ bs) (hA0 : 0 ≤ rA) (hA1 : rA < 1)
    (hS0 : 0 ≤ rS) (hS1 : rS < 1) :
    1 ≤ |(resetVel bs rA rD rS).1| ∧
    max 2 (bs * (8/10)) * (999/1000) ≤
      Real.sqrt ((resetVel bs rA rD rS).1 ^ 2 + (resetVel bs rA rD rS).2 ^ 2) ∧
    Real.sqrt ((resetVel bs rA rD rS).1 ^ 2 + (resetVel bs rA rD rS).2 ^ 2) ≤
      bs * (1001/1000) := by
  have hpi : (0 : ℝ) < Real.pi := Real.pi_pos
  simp only [resetVel]
  set d : ℝ := if rD < 1/2 then (1 : ℝ) else -1 with hd
  set m : ℝ := max 2 (bs * (8/10)) with hm
  set sp : ℝ := m + rS * (bs - m) with hsp
  set ang : ℝ := rA * (Real.pi / 2.5) - Real.pi / 5 with hang
  have hm2 : (2 : ℝ) ≤ m := le_max_left _ _
  have hmbs : m ≤ bs := max_le hbs (by nlinarith)
  have hsp1 : m ≤ sp := by nlinarith
  have hsp2 : sp ≤ bs := by nlinarith
  have hsppos : (0 : ℝ) < sp := by linarith
  have h25 : Real.pi / 2.5 = 2 * Real.pi / 5 := by
    rw [show (2.5 : ℝ) = 5/2 by norm_num]
    ring
  have hang1 : -(Real.pi / 5) ≤ ang := by
    have : 0 ≤ rA * (Real.pi / 2.5) := by
      apply mul_nonneg hA0
      rw [h25]
      positivity
    rw [hang]
    linarith
  have hang2 : ang ≤ Real.pi / 5 := by
    have hlt : rA * (Real.pi / 2.5) ≤ Real.pi / 2.5 := by
      rw [h25]
      nlinarith
    rw [hang, h25] at *
    linarith
  have habs : |ang| ≤ Real.pi / 5 := abs_le.mpr ⟨hang1, hang2⟩
  have hcos : (4/5 : ℝ) < Real.cos ang := by
    have h1 : Real.cos (Real.pi / 5) ≤ Real.cos |ang| :=
      Real.cos_le_cos_of_nonneg_of_le_pi (abs_nonneg ang) (by linarith) habs
    have h2 : Real.cos |ang| = Real.cos ang := Real.cos_abs ang
    have h3 : Real.cos (Real.pi / 5) = (1 + Real.sqrt 5) / 4 :=
      Real.cos_pi_div_five
    have h4 : (11/5 : ℝ) < Real.sqrt 5 :=
      (Real.lt_sqrt (by norm_num)).mpr (by norm_num)
    linarith
  have hd1 : |d| = 1 := by
    rw [hd]
    split_ifs <;> norm_num
  have hdxval : |Real.cos ang * sp * d| = Real.cos ang * sp := by
    rw [abs_mul, hd1, mul_one, abs_mul,
      abs_of_nonneg (by linarith : (0:ℝ) ≤ Real.cos ang),
      abs_of_nonneg hsppos.le]
  have hdxge : 1 ≤ |Real.cos ang * sp * d| := by
    rw [hdxval]
    nlinarith
  rw [if_neg (not_lt.mpr hdxge)]
  have hd2 : d ^ 2 = 1 := by
    rw [hd]
    split_ifs <;> norm_num
  have hsq : (Real.cos ang * sp * d) ^ 2 + (Real.sin ang * sp) ^ 2 = sp ^ 2 := by
    have htrig := Real.sin_sq_add_cos_sq ang
    calc (Real.cos ang * sp * d) ^ 2 + (Real.sin ang * sp) ^ 2
        = (Real.sin ang ^ 2 + Real.cos ang ^ 2 * (d ^ 2)) * sp ^ 2 := by ring
      _ = sp ^ 2 := by rw [hd2]; rw [mul_one, htrig, one_mul]
  rw [hsq, Real.sqrt_sq hsppos.le]
  refine ⟨hdxge, by nlinarith, by nlinarith⟩

/-- Witness for C5 at the default `ballSpeed = 3.5` and all-zero draws. -/
theorem resetVel_speed_spec_witness :
    1 ≤ |(resetVel (7/2) 0 0 0).1| ∧
    max 2 ((7/2) * (8/10)) * (999/1000) ≤
      Real.sqrt ((resetVel (7/2) 0 0 0).1 ^ 2 + (resetVel (7/2) 0 0 0).2 ^ 2) ∧
    Real.sqrt ((resetVel (7/2) 0 0 0).1 ^ 2 + (resetVel (7/2) 0 0 0).2 ^ 2) ≤
      (7/2) * (1001/1000) :=
  resetVel_speed_spec (7/2) 0 0 0 (by norm_num) (le_refl 0) (by norm_num)
    (le_refl 0) (by norm_num)

/-! ## Claim C7 — multiball population bound -/

/-- Every single population event preserves the `maxBalls` bound: each way of
adding a ball re-checks the live count against the cap first. -/
theorem GameState.applyEvent_le (g : GameState) (e : GameEvent)
    (h : g.ballCount ≤ maxBalls) : (g.applyEvent e).ballCount ≤ maxBalls := by
  cases e with
  | spawn now =>
      simp only [GameState.applyEvent, GameState.createMultiball]
      split_ifs with h1 h2 h3 <;> (simp_all [maxBalls]; try omega)
  | seqTimer =>
      simp only [GameState.applyEvent, GameState.seqFire]
      rcases hs : g.seq with _ | st
      · exact h
      · simp only []
        split_ifs with h1
        · exact h
        · simp only [not_or, not_le] at h1
          simp only [maxBalls] at *
          omega
  | remove n =>
      simp only [GameState.applyEvent]
      omega
  | refill =>
      simp only [GameState.applyEvent]
      split_ifs <;> simp_all [maxBalls]
  | chaosSet b => exact h
  | tickPopulation =>
      simp only [GameState.applyEvent, GameState.tickPopulation]
      split_ifs <;> exact h

/-- Claim C7: from the freshly created game (one ball), across any
interleaving of ticks, paddle-hit-triggered spawns, spawn-sequence timer
firings, removals, refills and chaos flips of the `multiball` flag, the ball
collection length never exceeds `maxBalls` (5). -/
theorem multiball_population_bound (events : List GameEvent) :
    (gameInit.runEvents events).ballCount ≤ maxBalls := by
  have key : ∀ (es : List GameEvent) (g : GameState),
      g.ballCount ≤ maxBalls → (g.runEvents es).ballCount ≤ maxBalls := by
    intro es
    induction es with
    | nil => intro g h; exact h
    | cons e rest ih =>
        intro g h
        exact ih _ (GameState.applyEvent_le g e h)
  exact key events gameInit (by norm_num [gameInit, maxBalls])

/-! ## Claim C8 — AI paddle movement -/

/-- Claim C8: `updateAI` moves the paddle by exactly `paddleSpeed * 0.8`
toward `targetY`, using only the sign of the offset from the paddle centre
(zero offset moves nothing), and the result is the clamp of that moved `y`
into `[field.y, field.y + field.height - height]`; when the paddle fits in
the field the final `y` lies in that interval. -/
theorem updateAI_spec (p : Paddle) (targetY : ℚ) (c : Canvas)
    (prm : GameParams)
    (hfit : p.height ≤ (getFieldOffset c prm).height) :
    (p.updateAI targetY c prm).y =
      max (getFieldOffset c prm).y
        (min ((getFieldOffset c prm).y + (getFieldOffset c prm).height - p.height)
          (if p.y + p.height / 2 < targetY then p.y + prm.paddleSpeed * (8/10)
           else if targetY < p.y + p.height / 2 then p.y - prm.paddleSpeed * (8/10)
           else p.y)) ∧
    (getFieldOffset c prm).y ≤ (p.updateAI targetY c prm).y ∧
    (p.updateAI targetY c prm).y ≤
      (getFieldOffset c prm).y + (getFieldOffset c prm).height - p.height := by
  have hmove : p.y + jsSign (targetY - (p.y + p.height / 2)) *
      (prm.paddleSpeed * (8/10)) =
      (if p.y + p.height / 2 < targetY then p.y + prm.paddleSpeed * (8/10)
       else if targetY < p.y + p.height / 2 then p.y - prm.paddleSpeed * (8/10)
       else p.y) := by
    unfold jsSign
    split_ifs <;> first | ring1 | (exfalso; linarith)
  refine ⟨?_, ?_, ?_⟩
  · simp only [Paddle.updateAI]
    rw [← hmove]
  · exact le_max_left _ _
  · simp only [Paddle.updateAI]
    exact max_le (by linarith) (min_le_left _ _)

/-- Paddle for the C8 witness. -/
def wit8Paddle : Paddle := ⟨10, 50, 15, 100, true⟩

/-- Witness for C8 at a concrete call (target below the paddle centre,
default parameters, 800×600 canvas). -/
theorem updateAI_spec_witness :
    (wit8Paddle.updateAI 300 ⟨800, 600⟩ defaultParamsQ).y =
      max (getFieldOffset ⟨800, 600⟩ defaultParamsQ).y
        (min ((getFieldOffset ⟨800, 600⟩ defaultParamsQ).y +
            (getFieldOffset ⟨800, 600⟩ defaultParamsQ).height - wit8Paddle.height)
          (if wit8Paddle.y + wit8Paddle.height / 2 < 300 then
            wit8Paddle.y + defaultParamsQ.paddleSpeed * (8/10)
           else if (300:ℚ) < wit8Paddle.y + wit8Paddle.height / 2 then
            wit8Paddle.y - defaultParamsQ.paddleSpeed * (8/10)
           else wit8Paddle.y)) ∧
    (getFieldOffset ⟨800, 600⟩ defaultParamsQ).y ≤
      (wit8Paddle.updateAI 300 ⟨800, 600⟩ defaultParamsQ).y ∧
    (wit8Paddle.updateAI 300 ⟨800, 600⟩ defaultParamsQ).y ≤
      (getFieldOffset ⟨800, 600⟩ defaultParamsQ).y +
        (getFieldOffset ⟨800, 600⟩ defaultParamsQ).height - wit8Paddle.height :=
  updateAI_spec wit8Paddle 300 ⟨800, 600⟩ defaultParamsQ
    (by norm_num [getFieldOffset, defaultParamsQ, wit8Paddle])

/-! ## Claim C10 — explicit-position spawn and falsy zero coordinates -/

/-- Claim C10: when a ball is constructed with `options.dx` and `options.dy`
both defined, a zero `options.x` (resp. `options.y`) is not honoured — JS
`||` treats 0 as falsy — so the coordinate falls back to the canvas centre;
consequently, on a canvas with positive dimensions an explicit-position spawn
can never place a ball at coordinate 0 on either axis. -/
theorem ballMake_zero_coordinate_not_honoured (c : Canvas) (prm : GameParams)
    (xo yo : Option ℚ) (dx dy : ℚ) (draw : ResetDraw)
    (hw : 0 < c.width) (hh : 0 < c.height) :
    (Ball.make c prm ⟨some 0, yo, some dx, some dy⟩ draw).x = c.width / 2 ∧
    (Ball.make c prm ⟨xo, some 0, some dx, some dy⟩ draw).y = c.height / 2 ∧
    (Ball.make c prm ⟨xo, yo, some dx, some dy⟩ draw).x ≠ 0 ∧
    (Ball.make c prm ⟨xo, yo, some dx, some dy⟩ draw).y ≠ 0 := by
  refine ⟨by simp [Ball.make, jsOrDefault], by simp [Ball.make, jsOrDefault],
    ?_, ?_⟩
  · rcases xo with _ | v <;> simp only [Ball.make, jsOrDefault]
    · exact ne_of_gt (by linarith)
    · split_ifs with h
      · exact ne_of_gt (by linarith)
      · exact h
  · rcases yo with _ | v <;> simp only [Ball.make, jsOrDefault]
    · exact ne_of_gt (by linarith)
    · split_ifs with h
      · exact ne_of_gt (by linarith)
      · exact h

/-- Witness for C10 at a concrete construction on the 800×600 canvas. -/
theorem ballMake_zero_coordinate_not_honoured_witness :
    (Ball.make ⟨800, 600⟩ defaultParamsQ ⟨some 0, some 7, some 1, some 2⟩
      ⟨0, 0⟩).x = 800 / 2 ∧
    (Ball.make ⟨800, 600⟩ defaultParamsQ ⟨some 5, some 0, some 1, some 2⟩
      ⟨0, 0⟩).y = 600 / 2 ∧
    (Ball.make ⟨800, 600⟩ defaultParamsQ ⟨some 5, some 7, some 1, some 2⟩
      ⟨0, 0⟩).x ≠ 0 ∧
    (Ball.make ⟨800, 600⟩ defaultParamsQ ⟨some 5, some 7, some 1, some 2⟩
      ⟨0, 0⟩).y ≠ 0 := by
  have h1 := ballMake_zero_coordinate_not_honoured ⟨800, 600⟩ defaultParamsQ
    (some 5) (some 7) 1 2 ⟨0, 0⟩ (by norm_num) (by norm_num)
  exact ⟨(ballMake_zero_coordinate_not_honoured ⟨800, 600⟩ defaultParamsQ
      (some 5) (some 7) 1 2 ⟨0, 0⟩ (by norm_num) (by norm_num)).1,
    h1.2.1, h1.2.2.1, h1.2.2.2⟩

/-! ## Claim C9 — colour pipeline totality and well-formedness -/

theorem hexDigitVal_le_15 (ch : Char) : hexDigitVal ch ≤ 15 := by
  unfold hexDigitVal
  split_ifs <;> omega

theorem hexMatch_channels_le (s : List Char) (r g b : ℕ)
    (h : hexMatch s = some (r, g, b)) : r ≤ 255 ∧ g ≤ 255 ∧ b ≤ 255 := by
  unfold hexMatch at h
  split at h
  · split_ifs at h
    · simp only [Option.some.injEq, Prod.mk.injEq] at h
      obtain ⟨h1, h2, h3⟩ := h
      subst h1 h2 h3
      rename_i a b c d e f _ _
      have ha := hexDigitVal_le_15 a
      have hb := hexDigitVal_le_15 b
      have hc := hexDigitVal_le_15 c
      have hd := hexDigitVal_le_15 d
      have he := hexDigitVal_le_15 e
      have hf := hexDigitVal_le_15 f
      omega
  · exact absurd h (by simp)

theorem hexToRgb_channels_le (s : List Char) :
    (hexToRgb s).1 ≤ 255 ∧ (hexToRgb s).2.1 ≤ 255 ∧ (hexToRgb s).2.2 ≤ 255 := by
  rcases hm : hexMatch s with _ | ⟨r, g, b⟩
  · simp [hexToRgb, hm]
  · simp only [hexToRgb, hm]
    exact hexMatch_channels_le s r g b hm

theorem hexDigitChar_isHex (d : ℕ) (hd : d < 16) :
    isHexDigitChar (hexDigitChar d) = true := by
  interval_cases d <;> decide

theorem natToHex_all_hex (n : ℕ) : (natToHex n).all isHexDigitChar = true := by
  induction n using Nat.strong_induction_on with
  | _ n ih =>
    unfold natToHex
    split_ifs with h
    · simp [hexDigitChar_isHex n h]
    · rw [List.all_append, Bool.and_eq_true]
      refine ⟨ih (n / 16) (Nat.div_lt_self (by omega) (by omega)), ?_⟩
      simp [hexDigitChar_isHex (n % 16) (Nat.mod_lt n (by omega))]

theorem natToHex_length (k : ℕ) : ∀ n, 16 ^ k ≤ n → n < 16 ^ (k + 1) →
    (natToHex n).length = k + 1 := by
  induction k with
  | zero =>
      intro n h1 h2
      unfold natToHex
      rw [dif_pos (by simpa using h2)]
      rfl
  | succ k ih =>
      intro n h1 h2
      have h16 : ¬n < 16 := by
        have hpow : (16 : ℕ) ^ 1 ≤ 16 ^ (k + 1) :=
          Nat.pow_le_pow_right (by norm_num) (by omega)
        simp only [pow_one] at hpow
        omega
      unfold natToHex
      rw [dif_neg h16, List.length_append]
      have hdiv1 : 16 ^ k ≤ n / 16 :=
        (Nat.le_div_iff_mul_le (by norm_num)).mpr (by rw [← pow_succ]; exact h1)
      have hdiv2 : n / 16 < 16 ^ (k + 1) :=
        (Nat.div_lt_iff_lt_mul (by norm_num)).mpr (by rw [← pow_succ]; exact h2)
      rw [ih (n / 16) hdiv1 hdiv2]
      rfl

/-- In-range channels pack to a 7-hex-digit number, so `slice(1)` leaves a
well-formed 6-digit colour. -/
theorem rgbToHex_wellFormed {r g b : ℚ}
    (hr0 : 0 ≤ r) (hr1 : r ≤ 255) (hg0 : 0 ≤ g) (hg1 : g ≤ 255)
    (hb0 : 0 ≤ b) (hb1 : b ≤ 255) :
    wellFormedHexColor (rgbToHex r g b) = true := by
  have fr0 : 0 ≤ ⌊r⌋ := Int.floor_nonneg.mpr hr0
  have fg0 : 0 ≤ ⌊g⌋ := Int.floor_nonneg.mpr hg0
  have fb0 : 0 ≤ ⌊b⌋ := Int.floor_nonneg.mpr hb0
  have fr1 : ⌊r⌋ ≤ 255 := by simpa using Int.floor_le_floor hr1
  have fg1 : ⌊g⌋ ≤ 255 := by simpa using Int.floor_le_floor hg1
  have fb1 : ⌊b⌋ ≤ 255 := by simpa using Int.floor_le_floor hb1
  have hn1 : 16 ^ 6 ≤ (2 ^ 24 + ⌊r⌋ * 2 ^ 16 + ⌊g⌋ * 2 ^ 8 + ⌊b⌋ : ℤ).toNat := by
    omega
  have hn2 : (2 ^ 24 + ⌊r⌋ * 2 ^ 16 + ⌊g⌋ * 2 ^ 8 + ⌊b⌋ : ℤ).toNat < 16 ^ 7 := by
    omega
  have hlen := natToHex_length 6 _ hn1 hn2
  have hall := natToHex_all_hex (2 ^ 24 + ⌊r⌋ * 2 ^ 16 + ⌊g⌋ * 2 ^ 8 + ⌊b⌋ : ℤ).toNat
  simp only [rgbToHex, wellFormedHexColor]
  rw [Bool.and_eq_true, Bool.and_eq_true]
  refine ⟨⟨by simp, ?_⟩, ?_⟩
  · rw [decide_eq_true_eq, List.length_drop, hlen]
  · rw [List.all_eq_true] at hall ⊢
    intro c hc
    exact hall c (List.mem_of_mem_drop hc)

/-- A string the regex rejects parses to `none`. -/
theorem hexMatch_eq_none_of_not_sixHex (s : List Char)
    (h : sixHexOptionalHash s = false) : hexMatch s = none := by
  unfold sixHexOptionalHash at h
  unfold hexMatch
  rcases ht : stripHash s with _ | ⟨a, _ | ⟨b, _ | ⟨c, _ | ⟨d, _ | ⟨e, _ | ⟨f, _ | ⟨g, gs⟩⟩⟩⟩⟩⟩⟩ <;>
    simp_all

/-- One channel of the exponential colour blend stays in `[0, 255]`. -/
theorem channel_lerp_mem (c t : ℕ) (hc : c ≤ 255) (ht : t ≤ 255) (speed : ℚ)
    (h0 : 0 ≤ speed) (h1 : speed ≤ 1) :
    0 ≤ (c : ℚ) + ((t : ℚ) - c) * speed ∧
    (c : ℚ) + ((t : ℚ) - c) * speed ≤ 255 := by
  have hc' : (c : ℚ) ≤ 255 := by exact_mod_cast hc
  have ht' : (t : ℚ) ≤ 255 := by exact_mod_cast ht
  exact move_toward_mem (by positivity) hc' (by positivity) ht' h0 h1

/-- Claim C9: `hexToRgb` is total and returns the white fallback
`(255, 255, 255)` on every string that is not exactly six hexadecimal digits
with an optional leading `#`; consequently `transitionColor` (with a blend
speed in `[0, 1]`, as the 0.02 used by the chaos engine) never fails and
always returns a well-formed `#rrggbb` string — a `#` followed by six hex
digits, each channel an integer in `[0, 255]` — for arbitrary, even
malformed, colour inputs. -/
theorem hexColor_pipeline_safe :
    (∀ s : List Char, sixHexOptionalHash s = false →
      hexToRgb s = (255, 255, 255)) ∧
    (∀ (cur tgt : List Char) (speed : ℚ), 0 ≤ speed → speed ≤ 1 →
      wellFormedHexColor (transitionColor cur tgt speed) = true) := by
  constructor
  · intro s hs
    unfold hexToRgb
    rw [hexMatch_eq_none_of_not_sixHex s hs]
  · intro cur tgt speed h0 h1
    obtain ⟨hc1, hc2, hc3⟩ := hexToRgb_channels_le cur
    obtain ⟨ht1, ht2, ht3⟩ := hexToRgb_channels_le tgt
    unfold transitionColor
    exact rgbToHex_wellFormed
      (channel_lerp_mem _ _ hc1 ht1 speed h0 h1).1
      (channel_lerp_mem _ _ hc1 ht1 speed h0 h1).2
      (channel_lerp_mem _ _ hc2 ht2 speed h0 h1).1
      (channel_lerp_mem _ _ hc2 ht2 speed h0 h1).2
      (channel_lerp_mem _ _ hc3 ht3 speed h0 h1).1
      (channel_lerp_mem _ _ hc3 ht3 speed h0 h1).2

/-- Witness for C9: a malformed two-character string falls back to white, and
a blend of a valid colour toward a hashless valid colour at the engine's 0.02
speed is well-formed. -/
theorem hexColor_pipeline_safe_witness :
    hexToRgb ['z', 'z'] = (255, 255, 255) ∧
    wellFormedHexColor (transitionColor
      ['#', 'f', 'f', '0', '0', 'f', 'f'] ['0', '0', 'f', 'f', '0', '0']
      (1/50)) = true :=
  ⟨hexColor_pipeline_safe.1 ['z', 'z'] (by decide),
   hexColor_pipeline_safe.2 _ _ (1/50) (by norm_num) (by norm_num)⟩

end Pong
